import Mathlib

/-!
Shallow embedding of `client.py`, a minimal interactive TCP client.

The script parses `sys.argv[1]` (host) and `int(sys.argv[2])` (port) under
`try ... except IndexError`, opens one connection with
`with socket.create_connection((HOST, PORT)) as sock:`, then loops:
read a line with `input("> ")`, break when `msg.lower() == "exit"`,
otherwise `sock.sendall(msg.encode())`, `response = sock.recv(1024)`,
`print(response.decode(), file=sys.stdout)`.  After the `with` block a
final `print("[*] Connection closed.", file=sys.stderr)` runs.

The embedding interprets the script over an explicit world (argument
vector, whether the connect succeeds, the console lines available before
end-of-file, and the peer's byte arrivals), producing the list of
observable events together with the process outcome.
-/

/-- One byte of UTF-8 output for a character, as in CPython's
`str.encode()` (UTF-8, strict).  Characters below `0x80` take one byte,
below `0x800` two, below `0x10000` three, and four otherwise. -/
def utf8EncodeCharN (c : Char) : List Nat :=
  let n := c.toNat
  if n < 128 then [n]
  else if n < 2048 then [192 + n / 64, 128 + n % 64]
  else if n < 65536 then [224 + n / 4096, 128 + (n / 64) % 64, 128 + n % 64]
  else [240 + n / 262144, 128 + (n / 4096) % 64, 128 + (n / 64) % 64, 128 + n % 64]

/-- `msg.encode()` from the source: UTF-8 bytes of the string. -/
def pyEncode (s : String) : List Nat :=
  s.data.foldr (fun c acc => utf8EncodeCharN c ++ acc) []

/-- A UTF-8 continuation byte (`10xxxxxx`). -/
def isContByte (b : Nat) : Bool := 128 ≤ b && b < 192

/-- Strict UTF-8 decoding of a byte list, as in CPython's
`bytes.decode()`: rejects stray continuation bytes, overlong forms,
surrogate code points and out-of-range leads, returning `none` where
Python raises `UnicodeDecodeError`. -/
def utf8DecodeList : List Nat → Option (List Char)
  | [] => some []
  | b :: rest =>
    if b < 128 then
      (utf8DecodeList rest).map (fun cs => Char.ofNat b :: cs)
    else if b < 194 then none
    else if b < 224 then
      match rest with
      | b1 :: r =>
        if isContByte b1 then
          (utf8DecodeList r).map (fun cs => Char.ofNat ((b - 192) * 64 + (b1 - 128)) :: cs)
        else none
      | [] => none
    else if b < 240 then
      match rest with
      | b1 :: b2 :: r =>
        if isContByte b1 && isContByte b2 then
          let n := (b - 224) * 4096 + (b1 - 128) * 64 + (b2 - 128)
          if 2048 ≤ n && (n < 55296 || 57344 ≤ n) then
            (utf8DecodeList r).map (fun cs => Char.ofNat n :: cs)
          else none
        else none
      | _ => none
    else if b < 245 then
      match rest with
      | b1 :: b2 :: b3 :: r =>
        if isContByte b1 && isContByte b2 && isContByte b3 then
          let n := (b - 240) * 262144 + (b1 - 128) * 4096 + (b2 - 128) * 64 + (b3 - 128)
          if 65536 ≤ n && n < 1114112 then
            (utf8DecodeList r).map (fun cs => Char.ofNat n :: cs)
          else none
        else none
      | _ => none
    else none

/-- `response.decode()` from the source: strict UTF-8 decoding to a
string, `none` modelling an uncaught `UnicodeDecodeError`. -/
def pyDecode? (bs : List Nat) : Option String :=
  (utf8DecodeList bs).map fun cs => String.mk cs

/-- ASCII whitespace as stripped by Python's `int()` before parsing. -/
def isSpaceChar (c : Char) : Bool :=
  c == ' ' || c == '\t' || c == '\n' || c == '\r' || c == '\x0b' || c == '\x0c'

/-- A decimal digit `0`–`9`. -/
def isDigitChar (c : Char) : Bool := 48 ≤ c.toNat && c.toNat ≤ 57

/-- The natural number a string of decimal digits denotes. -/
def natOfDigits (cs : List Char) : Nat :=
  cs.foldl (fun a c => a * 10 + (c.toNat - 48)) 0

/-- Strip leading and trailing whitespace characters. -/
def stripWS (cs : List Char) : List Char :=
  ((cs.dropWhile isSpaceChar).reverse.dropWhile isSpaceChar).reverse

/-- `int(s)` from the source, base 10: optional surrounding whitespace,
an optional sign, then one or more decimal digits; `none` models the
`ValueError` Python raises otherwise. -/
def pyInt? (s : String) : Option Int :=
  let t := stripWS s.data
  let signed : Bool × List Char :=
    match t with
    | '-' :: r => (true, r)
    | '+' :: r => (false, r)
    | r => (false, r)
  if signed.2 ≠ [] ∧ signed.2.all isDigitChar then
    some (if signed.1 then -(natOfDigits signed.2 : Int) else (natOfDigits signed.2 : Int))
  else none

/-- `msg.lower()` from the source: ASCII lowercasing of the string. -/
def pyLower (s : String) : String := String.mk (s.data.map Char.toLower)

/-- The two exception classes the argument-parsing block can raise:
`IndexError` (caught, usage path) and `ValueError` (uncaught). -/
inductive ArgErr
  | indexError
  | valueError
deriving DecidableEq, Repr

/-- The `try` block of the source: `HOST = sys.argv[1]` then
`PORT = int(sys.argv[2])`.  A missing element raises `IndexError`; a
present but unparseable port raises `ValueError`. -/
def getHostPort (argv : List String) : Except ArgErr (String × Int) :=
  match argv[1]? with
  | none => .error .indexError
  | some host =>
    match argv[2]? with
    | none => .error .indexError
    | some p =>
      match pyInt? p with
      | none => .error .valueError
      | some port => .ok (host, port)

/-- One unit of peer behaviour consumed by a blocking receive when the
kernel buffer is empty: a chunk of bytes arrives, the peer closes its
write side (`fin`), or the receive fails with an `OSError`. -/
inductive PeerAct
  | chunk (b : List Nat)
  | fin
  | fail
deriving DecidableEq, Repr

/-- Receive-side socket state: bytes already in the kernel buffer, the
peer actions not yet consumed, and whether the peer's `FIN` was seen. -/
structure SockSt where
  buf : List Nat
  net : List PeerAct
  finSeen : Bool
deriving DecidableEq, Repr

/-- Result of one `recv` call: data together with the successor state,
an indefinite block (nothing buffered, no peer action pending), or an
`OSError`. -/
inductive RecvRes
  | got (data : List Nat) (st : SockSt)
  | blocked
  | oserr
deriving DecidableEq, Repr

/-- `sock.recv(cap)`: return up to `cap` buffered bytes immediately when
the buffer is nonempty; otherwise block until bytes arrive (delivering
at most `cap` of them and buffering the rest), return zero bytes when
the peer has closed, block forever when the peer stays silent, or raise
on a network error. -/
def sockRecv (cap : Nat) (s : SockSt) : RecvRes :=
  if s.buf = [] then
    if s.finSeen then .got [] s
    else
      match s.net with
      | [] => .blocked
      | .chunk b :: t => .got (b.take cap) ⟨b.drop cap, t, s.finSeen⟩
      | .fin :: t => .got [] ⟨[], t, true⟩
      | .fail :: _ => .oserr
  else .got (s.buf.take cap) ⟨s.buf.drop cap, s.net, s.finSeen⟩

/-- Observable events of a run: writes to standard output and standard
error, the connect attempt, socket sends and receives, and the socket
closure performed by the `with` block. -/
inductive Ev
  | out (s : String)
  | err (s : String)
  | connect (host : String) (port : Int)
  | send (b : List Nat)
  | recv (cap : Nat) (data : List Nat)
  | close
deriving DecidableEq, Repr

/-- Is the event the socket-closure event? -/
def Ev.isCloseEv : Ev → Bool
  | .close => true
  | _ => false

/-- Is the event a connect attempt? -/
def Ev.isConnectEv : Ev → Bool
  | .connect _ _ => true
  | _ => false

/-- Is the event a write to standard error? -/
def Ev.isErrEv : Ev → Bool
  | .err _ => true
  | _ => false

/-- Events that use the socket as a live connection: connecting,
sending, receiving. -/
def Ev.isSockUse : Ev → Bool
  | .connect _ _ => true
  | .send _ => true
  | .recv _ _ => true
  | _ => false

/-- Events the interactive loop body itself can emit: prompt/response
writes to standard output, sends and receives. -/
def Ev.isLoopEv : Ev → Bool
  | .out _ => true
  | .send _ => true
  | .recv _ _ => true
  | _ => false

/-- The string written to standard output by the event, if any. -/
def Ev.outStr? : Ev → Option String
  | .out s => some s
  | _ => none

/-- The string written to standard error by the event, if any. -/
def Ev.errStr? : Ev → Option String
  | .err s => some s
  | _ => none

/-- How the `while True:` loop ends: `break` on the exit token, an
uncaught `EOFError` from `input()`, an uncaught `UnicodeDecodeError`
from `decode()`, an uncaught `OSError` from `recv`, or never (a receive
that blocks forever). -/
inductive LoopEnd
  | brk
  | eof
  | decodeErr
  | recvErr
  | hung
deriving DecidableEq, Repr

/-- The interactive loop of the source, interpreted over the remaining
console lines and the socket state.  Each iteration writes the prompt
`"> "` to standard output (the prompt of `input` goes to standard
output), breaks when `msg.lower() == "exit"`, otherwise sends the
encoded line, performs one `recv(1024)`, and prints the decoded bytes
plus a newline to standard output.  Exhausted console input models
end-of-file, where `input()` raises `EOFError`. -/
def loop : List String → SockSt → List Ev × SockSt × LoopEnd
  | [], s => ([Ev.out "> "], s, .eof)
  | msg :: rest, s =>
    if pyLower msg = "exit" then ([Ev.out "> "], s, .brk)
    else
      match sockRecv 1024 s with
      | .blocked => ([Ev.out "> ", Ev.send (pyEncode msg)], s, .hung)
      | .oserr => ([Ev.out "> ", Ev.send (pyEncode msg)], s, .recvErr)
      | .got r s' =>
        match pyDecode? r with
        | none => ([Ev.out "> ", Ev.send (pyEncode msg), Ev.recv 1024 r], s', .decodeErr)
        | some d =>
          let rec2 := loop rest s'
          (Ev.out "> " :: Ev.send (pyEncode msg) :: Ev.recv 1024 r ::
            Ev.out (d ++ "\n") :: rec2.1, rec2.2)

/-- Process outcome: normal termination with a code, termination by an
uncaught exception (CPython then exits with status 1 after a traceback),
or no termination at all (a receive blocked forever). -/
inductive Outcome
  | exited (code : Nat)
  | uncaught (exc : String)
  | hang
deriving DecidableEq, Repr

/-- The process exit status an outcome produces: `none` when the process
never exits, `1` for an uncaught exception. -/
def Outcome.exitCode : Outcome → Option Nat
  | .exited n => some n
  | .uncaught _ => some 1
  | .hang => none

/-- The whole environment a run depends on: `sys.argv` (element 0 is the
script name), whether `create_connection` succeeds, the console lines
available before end-of-file, and the peer's receive-side actions. -/
structure World where
  argv : List String
  connectOk : Bool
  stdinLines : List String
  net : List PeerAct
deriving DecidableEq, Repr

/-- The usage message of the source. -/
def usageMsg : String := "Usage: python main.py HOST PORT"

/-- The closing notice of the source. -/
def closeNotice : String := "[*] Connection closed."

/-- The f-string banner `Connected to ...` of the source (one `print`
call, so the trailing newline is appended by `print`). -/
def connMsg (host : String) (port : Int) : String :=
  "Connected to " ++ host ++ ":" ++ toString port ++
    "\nType \"exit\" to end the connection."

/-- Socket state at the start of the `with` block: empty buffer, the
world's pending peer actions, no `FIN` seen. -/
def startSock (w : World) : SockSt := ⟨[], w.net, false⟩

/-- The loop's result in a given world. -/
def loopOut (w : World) : List Ev × SockSt × LoopEnd :=
  loop w.stdinLines (startSock w)

/-- How the loop ends in a given world. -/
def loopEnd (w : World) : LoopEnd := (loopOut w).2.2

/-- The whole script: argument parsing with its `IndexError` handler and
`exit(1)`, the uncaught `ValueError` path, the connect attempt, the
banner on standard error, the interactive loop inside the `with` block
(whose `__exit__` closes the socket on every way out, including during
exception unwind), and the final closing-notice `print` that runs only
when control flows past the `with` block normally. -/
def run (w : World) : List Ev × Outcome :=
  match getHostPort w.argv with
  | .error .indexError => ([Ev.out (usageMsg ++ "\n")], .exited 1)
  | .error .valueError => ([], .uncaught "ValueError")
  | .ok (host, port) =>
    if w.connectOk then
      let hdr := [Ev.connect host port, Ev.err (connMsg host port ++ "\n")]
      match loopEnd w with
      | .brk =>
        (hdr ++ (loopOut w).1 ++ [Ev.close, Ev.err (closeNotice ++ "\n")], .exited 0)
      | .eof => (hdr ++ (loopOut w).1 ++ [Ev.close], .uncaught "EOFError")
      | .decodeErr => (hdr ++ (loopOut w).1 ++ [Ev.close], .uncaught "UnicodeDecodeError")
      | .recvErr => (hdr ++ (loopOut w).1 ++ [Ev.close], .uncaught "OSError")
      | .hung => (hdr ++ (loopOut w).1, .hang)
    else ([Ev.connect host port], .uncaught "OSError")

/-- The events strictly after the first socket-closure event (empty when
no closure occurs). -/
def afterClose : List Ev → List Ev
  | [] => []
  | Ev.close :: t => t
  | _ :: t => afterClose t

/-- Does any event after the socket closure still use the socket? -/
def sockUseAfterClose (tr : List Ev) : Bool :=
  (afterClose tr).any Ev.isSockUse

/-- Does the event deliver, as a receive, bytes that decode to the line
`s` (response text plus the newline `print` appends)? -/
def respEcho (s : String) : Ev → Bool
  | Ev.recv _ r =>
    match pyDecode? r with
    | some d => s == d ++ "\n"
    | none => false
  | _ => false

/-- Spec wording for standard output during a connected session: every
write to standard output is the decoded bytes of some receive of the
run, with the newline `print` appends — nothing else. -/
def specStdoutOnlyResponses (w : World) : Bool :=
  ((run w).1.filterMap Ev.outStr?).all fun s => (run w).1.any (respEcho s)

/-- Standard output during a session, as the code behaves: every write
is either the prompt of `input` or a decoded response plus newline. -/
def stdoutPromptOrResponse (w : World) : Bool :=
  ((run w).1.filterMap Ev.outStr?).all fun s =>
    s == "> " || (run w).1.any (respEcho s)

/-- Every write to standard error during a connected session is the
connect banner or the closing notice. -/
def stderrOnlyNotices (w : World) (host : String) (port : Int) : Bool :=
  ((run w).1.filterMap Ev.errStr?).all fun s =>
    s == connMsg host port ++ "\n" || s == closeNotice ++ "\n"

/-! ### Structural lemmas about the loop trace -/

/-- Loop-body events are never error writes, connects or closes. -/
theorem isLoopEv_elim {e : Ev} (h : e.isLoopEv = true) :
    e.isCloseEv = false ∧ e.isConnectEv = false ∧ e.isErrEv = false := by
  cases e <;> simp_all [Ev.isLoopEv, Ev.isCloseEv, Ev.isConnectEv, Ev.isErrEv]

/-- Every event the interactive loop emits is a prompt/response write, a
send or a receive. -/
theorem loop_mem_isLoopEv (ls : List String) :
    ∀ (s : SockSt), ∀ e ∈ (loop ls s).1, e.isLoopEv = true := by
  induction ls with
  | nil =>
    intro s e he
    simp only [loop, List.mem_singleton] at he
    subst he; rfl
  | cons msg rest ih =>
    intro s e he
    by_cases hx : pyLower msg = "exit"
    · simp only [loop, if_pos hx, List.mem_singleton] at he
      subst he; rfl
    · cases hr : sockRecv 1024 s with
      | blocked =>
        simp only [loop, if_neg hx, hr, List.mem_cons, List.not_mem_nil, or_false] at he
        rcases he with h | h <;> subst h <;> rfl
      | oserr =>
        simp only [loop, if_neg hx, hr, List.mem_cons, List.not_mem_nil, or_false] at he
        rcases he with h | h <;> subst h <;> rfl
      | got r s' =>
        cases hd : pyDecode? r with
        | none =>
          simp only [loop, if_neg hx, hr, hd, List.mem_cons, List.not_mem_nil, or_false] at he
          rcases he with h | h | h <;> subst h <;> rfl
        | some d =>
          simp only [loop, if_neg hx, hr, hd, List.mem_cons] at he
          rcases he with h | h | h | h | h
          · subst h; rfl
          · subst h; rfl
          · subst h; rfl
          · subst h; rfl
          · exact ih s' e h

/-- The loop never closes the socket itself. -/
theorem loop_countP_close (ls : List String) (s : SockSt) :
    (loop ls s).1.countP Ev.isCloseEv = 0 :=
  List.countP_eq_zero.mpr fun e he => by
    simp [(isLoopEv_elim (loop_mem_isLoopEv ls s e he)).1]

/-- The loop never opens a connection itself. -/
theorem loop_countP_connect (ls : List String) (s : SockSt) :
    (loop ls s).1.countP Ev.isConnectEv = 0 :=
  List.countP_eq_zero.mpr fun e he => by
    simp [(isLoopEv_elim (loop_mem_isLoopEv ls s e he)).2.1]

/-- The loop writes nothing to standard error. -/
theorem loop_countP_err (ls : List String) (s : SockSt) :
    (loop ls s).1.countP Ev.isErrEv = 0 :=
  List.countP_eq_zero.mpr fun e he => by
    simp [(isLoopEv_elim (loop_mem_isLoopEv ls s e he)).2.2]

/-- Every receive the loop performs requests exactly 1024 bytes. -/
theorem loop_recv_cap (ls : List String) :
    ∀ (s : SockSt) (c : Nat) (r : List Nat), Ev.recv c r ∈ (loop ls s).1 → c = 1024 := by
  induction ls with
  | nil =>
    intro s c r he
    simp only [loop, List.mem_singleton] at he
    cases he
  | cons msg rest ih =>
    intro s c r he
    by_cases hx : pyLower msg = "exit"
    · simp only [loop, if_pos hx, List.mem_singleton] at he
      cases he
    · cases hr : sockRecv 1024 s with
      | blocked =>
        simp only [loop, if_neg hx, hr, List.mem_cons, List.not_mem_nil, or_false] at he
        rcases he with h | h <;> cases h
      | oserr =>
        simp only [loop, if_neg hx, hr, List.mem_cons, List.not_mem_nil, or_false] at he
        rcases he with h | h <;> cases h
      | got r0 s' =>
        cases hd : pyDecode? r0 with
        | none =>
          simp [loop, if_neg hx, hr, hd] at he
          exact he.1
        | some d =>
          simp [loop, if_neg hx, hr, hd] at he
          rcases he with ⟨h1, h2⟩ | h
          · exact h1
          · exact ih s' c r h

/-- Every write to standard output the loop makes is either the prompt
or the decoded bytes of a receive of the same loop trace, plus the
newline appended by `print`. -/
theorem loop_out_shape (ls : List String) :
    ∀ (s : SockSt) (str : String), Ev.out str ∈ (loop ls s).1 →
      str = "> " ∨ ∃ r d, Ev.recv 1024 r ∈ (loop ls s).1 ∧ pyDecode? r = some d ∧
        str = d ++ "\n" := by
  induction ls with
  | nil =>
    intro s str he
    simp [loop] at he
    exact Or.inl he
  | cons msg rest ih =>
    intro s str he
    by_cases hx : pyLower msg = "exit"
    · simp [loop, if_pos hx] at he
      exact Or.inl he
    · cases hr : sockRecv 1024 s with
      | blocked =>
        simp [loop, if_neg hx, hr] at he
        exact Or.inl he
      | oserr =>
        simp [loop, if_neg hx, hr] at he
        exact Or.inl he
      | got r0 s' =>
        cases hd : pyDecode? r0 with
        | none =>
          simp [loop, if_neg hx, hr, hd] at he
          exact Or.inl he
        | some d =>
          have hloop : (loop (msg :: rest) s).1 =
              Ev.out "> " :: Ev.send (pyEncode msg) :: Ev.recv 1024 r0 ::
                Ev.out (d ++ "\n") :: (loop rest s').1 := by
            simp [loop, if_neg hx, hr, hd]
          have hmem : Ev.recv 1024 r0 ∈ (loop (msg :: rest) s).1 := by
            rw [hloop]
            exact List.mem_cons_of_mem _ (List.mem_cons_of_mem _ (List.mem_cons_self _ _))
          rw [hloop] at he
          simp only [List.mem_cons] at he
          rcases he with h | h | h | h | h
          · injection h with h1; exact Or.inl h1
          · exact absurd h (by simp)
          · exact absurd h (by simp)
          · injection h with h1
            exact Or.inr ⟨r0, d, hmem, hd, h1⟩
          · rcases ih s' str h with h1 | ⟨r1, d1, hm1, hd1, hstr⟩
            · exact Or.inl h1
            · refine Or.inr ⟨r1, d1, ?_, hd1, hstr⟩
              rw [hloop]
              exact List.mem_cons_of_mem _ (List.mem_cons_of_mem _
                (List.mem_cons_of_mem _ (List.mem_cons_of_mem _ hm1)))

/-- `afterClose` skips over a prefix containing no closure event. -/
theorem afterClose_append (l l2 : List Ev) (h : ∀ e ∈ l, e.isCloseEv = false) :
    afterClose (l ++ l2) = afterClose l2 := by
  induction l with
  | nil => rfl
  | cons x t ih =>
    have hx := h x (List.mem_cons_self x t)
    have ht : ∀ e ∈ t, e.isCloseEv = false := fun e he => h e (List.mem_cons_of_mem x he)
    cases x <;> simp_all [afterClose, Ev.isCloseEv]

/-- No event of the header (connect attempt plus banner) is a closure. -/
theorem hdr_no_close (host : String) (port : Int) :
    ∀ e ∈ [Ev.connect host port, Ev.err (connMsg host port ++ "\n")], e.isCloseEv = false := by
  intro e he
  simp only [List.mem_cons, List.not_mem_nil, or_false] at he
  rcases he with h | h <;> subst h <;> rfl

/-- The trace of the whole run when the loop ends with `break`. -/
theorem run_shape_brk (w : World) (host : String) (port : Int)
    (ha : getHostPort w.argv = .ok (host, port)) (hc : w.connectOk = true)
    (hb : loopEnd w = .brk) :
    run w = ([Ev.connect host port, Ev.err (connMsg host port ++ "\n")] ++ (loopOut w).1 ++
      [Ev.close, Ev.err (closeNotice ++ "\n")], .exited 0) := by
  simp [run, ha, hc, hb]

/-- The trace of the whole run when the loop ends by end-of-file. -/
theorem run_shape_eof (w : World) (host : String) (port : Int)
    (ha : getHostPort w.argv = .ok (host, port)) (hc : w.connectOk = true)
    (hb : loopEnd w = .eof) :
    run w = ([Ev.connect host port, Ev.err (connMsg host port ++ "\n")] ++ (loopOut w).1 ++
      [Ev.close], .uncaught "EOFError") := by
  simp [run, ha, hc, hb]

/-- The trace of the whole run when the loop ends by a decode error. -/
theorem run_shape_decodeErr (w : World) (host : String) (port : Int)
    (ha : getHostPort w.argv = .ok (host, port)) (hc : w.connectOk = true)
    (hb : loopEnd w = .decodeErr) :
    run w = ([Ev.connect host port, Ev.err (connMsg host port ++ "\n")] ++ (loopOut w).1 ++
      [Ev.close], .uncaught "UnicodeDecodeError") := by
  simp [run, ha, hc, hb]

/-- The trace of the whole run when the loop ends by a receive error. -/
theorem run_shape_recvErr (w : World) (host : String) (port : Int)
    (ha : getHostPort w.argv = .ok (host, port)) (hc : w.connectOk = true)
    (hb : loopEnd w = .recvErr) :
    run w = ([Ev.connect host port, Ev.err (connMsg host port ++ "\n")] ++ (loopOut w).1 ++
      [Ev.close], .uncaught "OSError") := by
  simp [run, ha, hc, hb]

/-- The trace of the whole run when a receive blocks forever. -/
theorem run_shape_hung (w : World) (host : String) (port : Int)
    (ha : getHostPort w.argv = .ok (host, port)) (hc : w.connectOk = true)
    (hb : loopEnd w = .hung) :
    run w = ([Ev.connect host port, Ev.err (connMsg host port ++ "\n")] ++ (loopOut w).1,
      .hang) := by
  simp [run, ha, hc, hb]

/-- A run makes at most one connect attempt. -/
theorem run_connect_le_one (w : World) : (run w).1.countP Ev.isConnectEv ≤ 1 := by
  have hl := loop_countP_connect w.stdinLines (startSock w)
  cases ha : getHostPort w.argv with
  | error er =>
    cases er <;> simp [run, ha, List.countP_cons, Ev.isConnectEv]
  | ok hp =>
    obtain ⟨host, port⟩ := hp
    cases hc : w.connectOk with
    | false => simp [run, ha, hc, List.countP_cons, Ev.isConnectEv]
    | true =>
      cases hb : loopEnd w <;>
        simp [run, ha, hc, hb, List.countP_append, List.countP_cons, Ev.isConnectEv,
          loopOut, hl]

/-! ### Claims -/

/-- Claim C1, corrected.  The closing notice is printed to the error
stream, after the socket closure, as the last action — but only on the
`break` path (the user typed "exit").  On end-of-file or an unhandled
error after the connection was established, the socket is still closed
(scoped release during unwind) yet the closing notice is never printed:
the only error-stream write of such a run is the connect banner, and the
process dies with status 1 from the uncaught exception. -/
theorem c1_closing_notice (w : World) (host : String) (port : Int)
    (ha : getHostPort w.argv = Except.ok (host, port)) (hc : w.connectOk = true) :
    (loopEnd w = LoopEnd.brk →
      (run w).1.countP Ev.isCloseEv = 1 ∧
      afterClose (run w).1 = [Ev.err (closeNotice ++ "\n")] ∧
      (run w).1.reverse.head? = some (Ev.err (closeNotice ++ "\n")) ∧
      (run w).2 = Outcome.exited 0)
    ∧ ((loopEnd w = LoopEnd.eof ∨ loopEnd w = LoopEnd.decodeErr ∨ loopEnd w = LoopEnd.recvErr) →
      (run w).1.countP Ev.isCloseEv = 1 ∧
      afterClose (run w).1 = [] ∧
      (run w).1.countP Ev.isErrEv = 1 ∧
      (run w).2.exitCode = some 1) := by
  have hnc : ∀ e ∈ [Ev.connect host port, Ev.err (connMsg host port ++ "\n")] ++ (loopOut w).1,
      e.isCloseEv = false := by
    intro e he
    rcases List.mem_append.mp he with h | h
    · exact hdr_no_close host port e h
    · exact (isLoopEv_elim (loop_mem_isLoopEv _ _ e h)).1
  have hlc := loop_countP_close w.stdinLines (startSock w)
  have hle := loop_countP_err w.stdinLines (startSock w)
  constructor
  · intro hb
    have hs := run_shape_brk w host port ha hc hb
    rw [hs]
    refine ⟨?_, ?_, ?_, rfl⟩
    · simp [List.countP_append, List.countP_cons, Ev.isCloseEv, loopOut, hlc]
    · rw [afterClose_append _ _ hnc]; simp [afterClose]
    · simp [List.reverse_append]
  · intro hb
    have hex : ∃ exc, run w =
        ([Ev.connect host port, Ev.err (connMsg host port ++ "\n")] ++ (loopOut w).1 ++
          [Ev.close], Outcome.uncaught exc) := by
      rcases hb with hb | hb | hb
      · exact ⟨_, run_shape_eof w host port ha hc hb⟩
      · exact ⟨_, run_shape_decodeErr w host port ha hc hb⟩
      · exact ⟨_, run_shape_recvErr w host port ha hc hb⟩
    obtain ⟨exc, hs⟩ := hex
    rw [hs]
    refine ⟨?_, ?_, ?_, rfl⟩
    · simp [List.countP_append, List.countP_cons, Ev.isCloseEv, loopOut, hlc]
    · rw [afterClose_append _ _ hnc]; simp [afterClose]
    · simp [List.countP_append, List.countP_cons, Ev.isErrEv, loopOut, hle]

/-- Claim C1 witness: in a session whose single console line is "exit",
the closing notice is the last event, right after the socket closure,
and the process exits with status 0. -/
theorem c1_witness :
    (run ⟨["main.py", "h", "80"], true, ["exit"], []⟩).1.countP Ev.isCloseEv = 1 ∧
    afterClose (run ⟨["main.py", "h", "80"], true, ["exit"], []⟩).1 =
      [Ev.err (closeNotice ++ "\n")] ∧
    (run ⟨["main.py", "h", "80"], true, ["exit"], []⟩).1.reverse.head? =
      some (Ev.err (closeNotice ++ "\n")) ∧
    (run ⟨["main.py", "h", "80"], true, ["exit"], []⟩).2 = Outcome.exited 0 :=
  (c1_closing_notice ⟨["main.py", "h", "80"], true, ["exit"], []⟩ "h" 80 rfl rfl).1 rfl

/-- Claim C1 counterexample: a run that reaches the connected state and
then hits end-of-file on the console closes the socket but never prints
the closing notice, refuting "on every loop exit path ... the program
prints the closing notice". -/
theorem c1_counterexample :
    loopEnd ⟨["main.py", "h", "80"], true, [], []⟩ = LoopEnd.eof ∧
    Ev.close ∈ (run ⟨["main.py", "h", "80"], true, [], []⟩).1 ∧
    Ev.err (closeNotice ++ "\n") ∉ (run ⟨["main.py", "h", "80"], true, [], []⟩).1 := by
  refine ⟨rfl, by decide, by decide⟩

/-- Claim C2, corrected.  When standard input reaches end-of-file the
loop does not exit normally: `input()` raises an uncaught `EOFError`,
so the socket is closed during unwind, the closing notice is not printed
(the banner is the only error-stream write), the closure is the last
event, and the process terminates with status 1, not 0. -/
theorem c2_eof_fatal (w : World) (host : String) (port : Int)
    (ha : getHostPort w.argv = Except.ok (host, port)) (hc : w.connectOk = true)
    (he : loopEnd w = LoopEnd.eof) :
    (run w).2 = Outcome.uncaught "EOFError" ∧
    (run w).2.exitCode = some 1 ∧
    (run w).1.countP Ev.isCloseEv = 1 ∧
    (run w).1.reverse.head? = some Ev.close ∧
    (run w).1.countP Ev.isErrEv = 1 := by
  have hs := run_shape_eof w host port ha hc he
  have hlc := loop_countP_close w.stdinLines (startSock w)
  have hle := loop_countP_err w.stdinLines (startSock w)
  rw [hs]
  refine ⟨rfl, rfl, ?_, ?_, ?_⟩
  · simp [List.countP_append, List.countP_cons, Ev.isCloseEv, loopOut, hlc]
  · simp [List.reverse_append]
  · simp [List.countP_append, List.countP_cons, Ev.isErrEv, loopOut, hle]

/-- Claim C2 witness: a connected session whose console input ends after
one ordinary line dies from the uncaught `EOFError` with exit status 1,
the socket closure being the final event. -/
theorem c2_witness :
    (run ⟨["main.py", "h", "80"], true, ["hello"], [PeerAct.chunk (pyEncode "hi")]⟩).2 =
      Outcome.uncaught "EOFError" ∧
    (run ⟨["main.py", "h", "80"], true, ["hello"], [PeerAct.chunk (pyEncode "hi")]⟩).2.exitCode =
      some 1 ∧
    (run ⟨["main.py", "h", "80"], true, ["hello"],
      [PeerAct.chunk (pyEncode "hi")]⟩).1.countP Ev.isCloseEv = 1 ∧
    (run ⟨["main.py", "h", "80"], true, ["hello"],
      [PeerAct.chunk (pyEncode "hi")]⟩).1.reverse.head? = some Ev.close ∧
    (run ⟨["main.py", "h", "80"], true, ["hello"],
      [PeerAct.chunk (pyEncode "hi")]⟩).1.countP Ev.isErrEv = 1 :=
  c2_eof_fatal ⟨["main.py", "h", "80"], true, ["hello"], [PeerAct.chunk (pyEncode "hi")]⟩
    "h" 80 rfl rfl rfl

/-- Claim C2 counterexample: at end-of-input the process outcome is the
uncaught `EOFError` (exit status 1), not a graceful status-0 shutdown,
and the closing notice is absent, refuting "the interactive loop exits
normally ... the closing notice is still printed ... exit status 0". -/
theorem c2_counterexample :
    loopEnd ⟨["main.py", "h", "80"], true, ["a"], [PeerAct.fin]⟩ = LoopEnd.eof ∧
    (run ⟨["main.py", "h", "80"], true, ["a"], [PeerAct.fin]⟩).2.exitCode ≠ some 0 ∧
    Ev.err (closeNotice ++ "\n") ∉ (run ⟨["main.py", "h", "80"], true, ["a"], [PeerAct.fin]⟩).1 := by
  refine ⟨rfl, by decide, by decide⟩

/-- Claim C3, corrected.  The exit check is `msg.lower() == "exit"`
without any trimming: a console line whose exact value lowercases to
"exit" ends the loop with only the prompt emitted (nothing is sent),
while any other line — including lines that equal "exit" only after
stripping surrounding whitespace — is sent over the socket. -/
theorem c3_exit_token (msg : String) (rest : List String) (s : SockSt) :
    (pyLower msg = "exit" → loop (msg :: rest) s = ([Ev.out "> "], s, LoopEnd.brk))
    ∧ (pyLower msg ≠ "exit" →
        (loop (msg :: rest) s).1.take 2 = [Ev.out "> ", Ev.send (pyEncode msg)]) := by
  constructor
  · intro h
    simp [loop, if_pos h]
  · intro h
    cases hr : sockRecv 1024 s with
    | blocked => simp [loop, if_neg h, hr]
    | oserr => simp [loop, if_neg h, hr]
    | got r0 s' =>
      cases hd : pyDecode? r0 with
      | none => simp [loop, if_neg h, hr, hd]
      | some d => simp [loop, if_neg h, hr, hd]

/-- Claim C3 witness: the line "EXIT" ends the loop without a send,
while the line " exit " (equal to "exit" only after trimming) does not
end the loop and is sent. -/
theorem c3_witness :
    loop ["EXIT"] ⟨[], [], false⟩ = ([Ev.out "> "], ⟨[], [], false⟩, LoopEnd.brk) ∧
    (loop [" exit "] ⟨[], [], false⟩).1.take 2 =
      [Ev.out "> ", Ev.send (pyEncode " exit ")] :=
  ⟨(c3_exit_token "EXIT" [] ⟨[], [], false⟩).1 rfl,
   (c3_exit_token " exit " [] ⟨[], [], false⟩).2 (by decide)⟩

/-- Claim C3 counterexample: the line " exit " trims and lowercases to
"exit", yet the program sends it over the socket and the loop does not
terminate on it, refuting the claim for lines with surrounding
whitespace. -/
theorem c3_counterexample :
    pyLower (String.mk (stripWS " exit ".data)) = "exit" ∧
    Ev.send (pyEncode " exit ") ∈
      (run ⟨["main.py", "h", "80"], true, [" exit "], [PeerAct.fin]⟩).1 ∧
    loopEnd ⟨["main.py", "h", "80"], true, [" exit "], [PeerAct.fin]⟩ = LoopEnd.eof := by
  refine ⟨rfl, by decide, rfl⟩

/-- Claim C4, confirmed.  Every run makes at most one connect attempt;
and on every exit path from the connected state other than blocking
forever — the "exit" token, end-of-input, or an uncaught mid-session
error — the socket is closed exactly once, and no event after the
closure uses the socket again (no connect, send or receive: the state
machine is terminal after `CLOSED`). -/
theorem c4_socket_lifecycle (w : World) :
    (run w).1.countP Ev.isConnectEv ≤ 1
    ∧ (∀ host port, getHostPort w.argv = Except.ok (host, port) → w.connectOk = true →
        loopEnd w ≠ LoopEnd.hung →
        (run w).1.countP Ev.isCloseEv = 1 ∧ sockUseAfterClose (run w).1 = false) := by
  refine ⟨run_connect_le_one w, ?_⟩
  intro host port ha hc hne
  have hnc : ∀ e ∈ [Ev.connect host port, Ev.err (connMsg host port ++ "\n")] ++ (loopOut w).1,
      e.isCloseEv = false := by
    intro e he
    rcases List.mem_append.mp he with h | h
    · exact hdr_no_close host port e h
    · exact (isLoopEv_elim (loop_mem_isLoopEv _ _ e h)).1
  have hlc := loop_countP_close w.stdinLines (startSock w)
  have hex : ∃ tail out, (tail = [Ev.close] ∨ tail = [Ev.close, Ev.err (closeNotice ++ "\n")]) ∧
      run w = ([Ev.connect host port, Ev.err (connMsg host port ++ "\n")] ++ (loopOut w).1 ++
        tail, out) := by
    cases hb : loopEnd w with
    | brk => exact ⟨_, _, Or.inr rfl, run_shape_brk w host port ha hc hb⟩
    | eof => exact ⟨_, _, Or.inl rfl, run_shape_eof w host port ha hc hb⟩
    | decodeErr => exact ⟨_, _, Or.inl rfl, run_shape_decodeErr w host port ha hc hb⟩
    | recvErr => exact ⟨_, _, Or.inl rfl, run_shape_recvErr w host port ha hc hb⟩
    | hung => exact absurd hb hne
  obtain ⟨tail, out, htail, hs⟩ := hex
  rw [hs]
  constructor
  · rcases htail with h | h <;> subst h <;>
      simp [List.countP_append, List.countP_cons, Ev.isCloseEv, loopOut, hlc]
  · unfold sockUseAfterClose
    rw [afterClose_append _ _ hnc]
    rcases htail with h | h <;> subst h <;> simp [afterClose, Ev.isSockUse]

/-- Claim C4 witness: in a session ended by the "exit" token the run
connects at most once, closes exactly once, and never uses the socket
after the closure. -/
theorem c4_witness :
    (run ⟨["main.py", "h", "80"], true, ["exit"], []⟩).1.countP Ev.isConnectEv ≤ 1 ∧
    (run ⟨["main.py", "h", "80"], true, ["exit"], []⟩).1.countP Ev.isCloseEv = 1 ∧
    sockUseAfterClose (run ⟨["main.py", "h", "80"], true, ["exit"], []⟩).1 = false :=
  ⟨(c4_socket_lifecycle ⟨["main.py", "h", "80"], true, ["exit"], []⟩).1,
   (c4_socket_lifecycle ⟨["main.py", "h", "80"], true, ["exit"], []⟩).2 "h" 80 rfl rfl
     (by decide)⟩

/-- One complete loop iteration: for a non-exit line whose receive
succeeds and decodes, the iteration emits exactly the prompt, one send,
one receive and one response print, then continues as the loop on the
remaining lines. -/
theorem loop_iter_eq (msg : String) (rest : List String) (s s' : SockSt) (r0 : List Nat)
    (d : String) (hx : pyLower msg ≠ "exit") (hr : sockRecv 1024 s = RecvRes.got r0 s')
    (hd : pyDecode? r0 = some d) :
    loop (msg :: rest) s =
      (Ev.out "> " :: Ev.send (pyEncode msg) :: Ev.recv 1024 r0 :: Ev.out (d ++ "\n") ::
        (loop rest s').1, (loop rest s').2) := by
  simp [loop, if_neg hx, hr, hd]

/-- Claim C5, confirmed.  A receive that returns zero bytes (peer
closed) is decoded as the empty string, an empty line is printed to
standard output, and the loop continues with the remaining console
lines — the zero-byte receive is not detected as disconnection. -/
theorem c5_zero_byte_recv (msg : String) (rest : List String) (s s' : SockSt)
    (hx : pyLower msg ≠ "exit") (hr : sockRecv 1024 s = RecvRes.got [] s') :
    loop (msg :: rest) s =
      (Ev.out "> " :: Ev.send (pyEncode msg) :: Ev.recv 1024 [] :: Ev.out "\n" ::
        (loop rest s').1, (loop rest s').2) :=
  loop_iter_eq msg rest s s' [] "" hx hr rfl

/-- Claim C5 witness: after the peer closes, the next iteration receives
zero bytes, prints an empty line, and keeps looping. -/
theorem c5_witness :
    loop ["hi"] ⟨[], [PeerAct.fin], false⟩ =
      (Ev.out "> " :: Ev.send (pyEncode "hi") :: Ev.recv 1024 [] :: Ev.out "\n" ::
        (loop [] ⟨[], [], true⟩).1, (loop [] ⟨[], [], true⟩).2) :=
  c5_zero_byte_recv "hi" [] ⟨[], [PeerAct.fin], false⟩ ⟨[], [], true⟩ (by decide) rfl

/-- Every receive of a whole run requests exactly 1024 bytes. -/
theorem run_recv_cap (w : World) (c : Nat) (r : List Nat)
    (hm : Ev.recv c r ∈ (run w).1) : c = 1024 := by
  have hl : Ev.recv c r ∈ (loopOut w).1 → c = 1024 :=
    loop_recv_cap w.stdinLines (startSock w) c r
  cases ha : getHostPort w.argv with
  | error er => cases er <;> simp [run, ha] at hm
  | ok hp =>
    obtain ⟨host, port⟩ := hp
    cases hc : w.connectOk with
    | false => simp [run, ha, hc] at hm
    | true =>
      cases hb : loopEnd w with
      | brk =>
        rw [run_shape_brk w host port ha hc hb] at hm
        simp [List.mem_append] at hm
        exact hl hm
      | eof =>
        rw [run_shape_eof w host port ha hc hb] at hm
        simp [List.mem_append] at hm
        exact hl hm
      | decodeErr =>
        rw [run_shape_decodeErr w host port ha hc hb] at hm
        simp [List.mem_append] at hm
        exact hl hm
      | recvErr =>
        rw [run_shape_recvErr w host port ha hc hb] at hm
        simp [List.mem_append] at hm
        exact hl hm
      | hung =>
        rw [run_shape_hung w host port ha hc hb] at hm
        simp [List.mem_append] at hm
        exact hl hm

/-- Claim C6, confirmed.  Every receive call of a run requests exactly
1024 bytes; each completed iteration performs exactly one receive; and
when 2048 bytes arrive at once, the receive delivers only the first
1024 while the remaining 1024 stay buffered and are delivered whole by
the next receive call — no internal re-assembly. -/
theorem c6_single_recv_1024 :
    (∀ (w : World) (c : Nat) (r : List Nat), Ev.recv c r ∈ (run w).1 → c = 1024)
    ∧ (∀ (msg : String) (rest : List String) (s s' : SockSt) (r0 : List Nat) (d : String),
        pyLower msg ≠ "exit" → sockRecv 1024 s = RecvRes.got r0 s' → pyDecode? r0 = some d →
        loop (msg :: rest) s =
          (Ev.out "> " :: Ev.send (pyEncode msg) :: Ev.recv 1024 r0 :: Ev.out (d ++ "\n") ::
            (loop rest s').1, (loop rest s').2))
    ∧ (∀ (b : List Nat) (t : List PeerAct), b.length = 2048 →
        sockRecv 1024 ⟨[], PeerAct.chunk b :: t, false⟩ =
          RecvRes.got (b.take 1024) ⟨b.drop 1024, t, false⟩ ∧
        (b.take 1024).length = 1024 ∧
        sockRecv 1024 ⟨b.drop 1024, t, false⟩ =
          RecvRes.got (b.drop 1024) ⟨[], t, false⟩) := by
  refine ⟨run_recv_cap, loop_iter_eq, ?_⟩
  intro b t hlen
  have hne : b.drop 1024 ≠ [] := by
    intro h0
    have hl0 := congrArg List.length h0
    simp [List.length_drop, hlen] at hl0
  refine ⟨rfl, ?_, ?_⟩
  · simp only [List.length_take, hlen]
    omega
  · have ht : (b.drop 1024).take 1024 = b.drop 1024 :=
      List.take_of_length_le (by simp only [List.length_drop, hlen]; omega)
    have hd2 : (b.drop 1024).drop 1024 = [] :=
      List.drop_eq_nil_of_le (by simp only [List.length_drop, hlen]; omega)
    simp [sockRecv, hne, ht, hd2]

/-- Claim C6 witness: a 2048-byte arrival is split by the 1024-byte
receive cap, the second half arriving on the next receive; and a
concrete run's receive indeed carries cap 1024. -/
theorem c6_witness :
    (1024 = 1024) ∧
    (sockRecv 1024 ⟨[], [PeerAct.chunk (List.replicate 2048 65)], false⟩ =
      RecvRes.got ((List.replicate 2048 65).take 1024)
        ⟨(List.replicate 2048 65).drop 1024, [], false⟩ ∧
     ((List.replicate 2048 65).take 1024).length = 1024 ∧
     sockRecv 1024 ⟨(List.replicate 2048 65).drop 1024, [], false⟩ =
      RecvRes.got ((List.replicate 2048 65).drop 1024) ⟨[], [], false⟩) :=
  ⟨c6_single_recv_1024.1 ⟨["main.py", "h", "80"], true, ["a"], [PeerAct.chunk [65]]⟩ 1024 [65]
     (by decide),
   c6_single_recv_1024.2.2 (List.replicate 2048 65) [] (List.length_replicate 2048 65)⟩

/-- With at most two argument-vector entries, indexing `argv[1]` or
`argv[2]` raises `IndexError`. -/
theorem getHostPort_short (argv : List String) (h : argv.length ≤ 2) :
    getHostPort argv = Except.error ArgErr.indexError := by
  unfold getHostPort
  cases h1 : argv[1]? with
  | none => rfl
  | some host =>
    have h2 : argv[2]? = none := List.getElem?_eq_none h
    rw [h2]

/-- Claim C7, confirmed.  With fewer than two command-line arguments the
program prints the usage message to standard output and exits with
status 1, attempting no connection. -/
theorem c7_usage (w : World) (h : w.argv.length ≤ 2) :
    run w = ([Ev.out (usageMsg ++ "\n")], Outcome.exited 1) ∧
    (run w).1.countP Ev.isConnectEv = 0 := by
  have ha := getHostPort_short w.argv h
  refine ⟨by simp [run, ha], ?_⟩
  simp [run, ha, List.countP_cons, Ev.isConnectEv]

/-- Claim C7 witness: with only a host argument the run is exactly the
usage message on standard output and exit status 1, with no connect. -/
theorem c7_witness :
    run ⟨["main.py", "h"], true, [], []⟩ = ([Ev.out (usageMsg ++ "\n")], Outcome.exited 1) ∧
    (run ⟨["main.py", "h"], true, [], []⟩).1.countP Ev.isConnectEv = 0 :=
  c7_usage ⟨["main.py", "h"], true, [], []⟩ (by decide)

/-- A present third argument that does not parse as an integer makes the
argument block end in the uncaught `ValueError`. -/
theorem getHostPort_badPort (argv : List String) (p : String) (h2 : argv[2]? = some p)
    (hp : pyInt? p = none) : getHostPort argv = Except.error ArgErr.valueError := by
  have hlen : 2 < argv.length := by
    by_contra hcon
    push_neg at hcon
    rw [List.getElem?_eq_none hcon] at h2
    cases h2
  have h1 : argv[1]? = some argv[1] := List.getElem?_eq_getElem (by omega)
  simp [getHostPort, h1, h2, hp]

/-- Claim C8, confirmed.  When both arguments are present but the port
does not parse as a base-10 integer, the run produces no output events
at all (no usage message, no connect attempt) and dies from the
uncaught `ValueError` with a non-zero status — the port is never
defaulted. -/
theorem c8_bad_port (w : World) (p : String) (h2 : w.argv[2]? = some p)
    (hp : pyInt? p = none) :
    run w = ([], Outcome.uncaught "ValueError") ∧
    (run w).2.exitCode = some 1 ∧
    (run w).1.countP Ev.isConnectEv = 0 := by
  have ha := getHostPort_badPort w.argv p h2 hp
  have hs : run w = ([], Outcome.uncaught "ValueError") := by simp [run, ha]
  rw [hs]
  exact ⟨rfl, rfl, rfl⟩

/-- Claim C8 witness: with port argument "8x" the run dies from the
uncaught `ValueError` with exit status 1, printing nothing and never
connecting. -/
theorem c8_witness :
    run ⟨["main.py", "h", "8x"], true, [], []⟩ = ([], Outcome.uncaught "ValueError") ∧
    (run ⟨["main.py", "h", "8x"], true, [], []⟩).2.exitCode = some 1 ∧
    (run ⟨["main.py", "h", "8x"], true, [], []⟩).1.countP Ev.isConnectEv = 0 :=
  c8_bad_port ⟨["main.py", "h", "8x"], true, [], []⟩ "8x" rfl rfl

/-- Claim C10, confirmed.  An empty console line is neither the exit
token nor skipped: the iteration emits the prompt and a send of the
empty byte string, and with a silent peer the following receive blocks
the process forever (the loop ends `hung`, the iteration stalls). -/
theorem c10_empty_line (rest : List String) :
    (∀ s : SockSt, (loop ("" :: rest) s).1.take 2 = [Ev.out "> ", Ev.send []])
    ∧ loop ("" :: rest) ⟨[], [], false⟩ =
        ([Ev.out "> ", Ev.send []], ⟨[], [], false⟩, LoopEnd.hung) := by
  have hx : pyLower "" ≠ "exit" := by decide
  constructor
  · intro s
    cases hr : sockRecv 1024 s with
    | blocked => simp [loop, if_neg hx, hr, pyEncode]
    | oserr => simp [loop, if_neg hx, hr, pyEncode]
    | got r0 s' =>
      cases hd : pyDecode? r0 with
      | none => simp [loop, if_neg hx, hr, hd, pyEncode]
      | some d => simp [loop, if_neg hx, hr, hd, pyEncode]
  · simp [loop, if_neg hx, sockRecv, pyEncode]

/-- In a connected session the run trace is the header (connect attempt
and banner), the loop trace, and one of three tails: nothing (receive
blocked forever), the bare closure, or the closure followed by the
closing notice. -/
theorem run_shape_cases (w : World) (host : String) (port : Int)
    (ha : getHostPort w.argv = Except.ok (host, port)) (hc : w.connectOk = true) :
    ∃ tail outc,
      (tail = [] ∨ tail = [Ev.close] ∨ tail = [Ev.close, Ev.err (closeNotice ++ "\n")]) ∧
      run w = ([Ev.connect host port, Ev.err (connMsg host port ++ "\n")] ++ (loopOut w).1 ++
        tail, outc) := by
  cases hb : loopEnd w with
  | brk => exact ⟨_, _, Or.inr (Or.inr rfl), run_shape_brk w host port ha hc hb⟩
  | eof => exact ⟨_, _, Or.inr (Or.inl rfl), run_shape_eof w host port ha hc hb⟩
  | decodeErr => exact ⟨_, _, Or.inr (Or.inl rfl), run_shape_decodeErr w host port ha hc hb⟩
  | recvErr => exact ⟨_, _, Or.inr (Or.inl rfl), run_shape_recvErr w host port ha hc hb⟩
  | hung =>
    exact ⟨[], _, Or.inl rfl, by
      rw [run_shape_hung w host port ha hc hb, List.append_nil]⟩

/-- Claim C9, corrected.  During a connected session every standard
output write is either the `input` prompt `"> "` — which goes to
standard output, so the stream is not response data alone — or the
decoded bytes of some receive of the run plus the newline `print`
appends; and every standard error write is the connect banner or the
closing notice, so the banner, hint and notice never reach standard
output. -/
theorem c9_streams (w : World) (host : String) (port : Int)
    (ha : getHostPort w.argv = Except.ok (host, port)) (hc : w.connectOk = true) :
    stdoutPromptOrResponse w = true ∧ stderrOnlyNotices w host port = true := by
  obtain ⟨tail, outc, htail, hs⟩ := run_shape_cases w host port ha hc
  constructor
  · unfold stdoutPromptOrResponse
    rw [hs]
    apply List.all_eq_true.mpr
    intro s hsin
    obtain ⟨e, he, heq⟩ := List.mem_filterMap.mp hsin
    cases e <;> simp [Ev.outStr?] at heq
    case out s0 =>
    subst heq
    rcases List.mem_append.mp he with he1 | he2
    · rcases List.mem_append.mp he1 with hh | hL
      · simp at hh
      · rcases loop_out_shape w.stdinLines (startSock w) s0 hL with h | ⟨r, d, hrm, hd, hsd⟩
        · simp [h]
        · have hmem : Ev.recv 1024 r ∈
              [Ev.connect host port, Ev.err (connMsg host port ++ "\n")] ++ (loopOut w).1 ++
                tail :=
            List.mem_append_left _ (List.mem_append_right _ hrm)
          have hany : ([Ev.connect host port, Ev.err (connMsg host port ++ "\n")] ++
              (loopOut w).1 ++ tail).any (respEcho s0) = true :=
            List.any_eq_true.mpr ⟨Ev.recv 1024 r, hmem, by simp [respEcho, hd, hsd]⟩
          rw [hany, Bool.or_true]
    · rcases htail with h | h | h <;> subst h <;> simp at he2
  · unfold stderrOnlyNotices
    rw [hs]
    apply List.all_eq_true.mpr
    intro s hsin
    obtain ⟨e, he, heq⟩ := List.mem_filterMap.mp hsin
    cases e <;> simp [Ev.errStr?] at heq
    case err s0 =>
    subst heq
    rcases List.mem_append.mp he with he1 | he2
    · rcases List.mem_append.mp he1 with hh | hL
      · simp at hh
        simp [hh]
      · have hfalse := loop_mem_isLoopEv w.stdinLines (startSock w) (Ev.err s0) hL
        simp [Ev.isLoopEv] at hfalse
    · rcases htail with h | h | h <;> subst h <;> simp at he2
      simp [he2]

/-- Claim C9 witness: in a full session every standard output write is a
prompt or a decoded response, and standard error carries exactly the
banner and the closing notice. -/
theorem c9_witness :
    stdoutPromptOrResponse ⟨["main.py", "h", "80"], true, ["ping", "exit"],
      [PeerAct.chunk (pyEncode "pong")]⟩ = true ∧
    stderrOnlyNotices ⟨["main.py", "h", "80"], true, ["ping", "exit"],
      [PeerAct.chunk (pyEncode "pong")]⟩ "h" 80 = true :=
  c9_streams ⟨["main.py", "h", "80"], true, ["ping", "exit"],
    [PeerAct.chunk (pyEncode "pong")]⟩ "h" 80 rfl rfl

/-- Claim C9 counterexample: in a session that passes argument parsing
the prompt `"> "` of `input` is written to standard output, so standard
output does not carry only the decoded response bytes: the spec-worded
predicate fails on a concrete graceful session. -/
theorem c9_counterexample :
    specStdoutOnlyResponses ⟨["main.py", "h", "80"], true, ["hi", "exit"],
      [PeerAct.chunk (pyEncode "ok")]⟩ = false ∧
    Ev.out "> " ∈ (run ⟨["main.py", "h", "80"], true, ["hi", "exit"],
      [PeerAct.chunk (pyEncode "ok")]⟩).1 ∧
    (run ⟨["main.py", "h", "80"], true, ["hi", "exit"],
      [PeerAct.chunk (pyEncode "ok")]⟩).2 = Outcome.exited 0 := by
  refine ⟨by decide, by decide, rfl⟩
